import Mathlib

/-!
Verification of the loan-gathering pass of the borrow checker
(`src/librustc_borrowck/borrowck/gather_loans/mod.rs`).

Shallow embedding: the recursive loan-path data model, the three validity
checks, scope arithmetic, mutation marking, the borrow pipeline
(`guarantee_valid`) and the static-initializer walk are translated to Lean
functions.  External collaborators (the lifetime checker, the restriction
solver, the region/scope table, the categorization pass) are modelled as
oracle fields of a context record, mirroring the trait boundaries of the
source.  Diagnostics are accumulated in an explicit list; the fatal
`span_bug` / `assert!` paths are modelled with `Except`.
-/

namespace GatherLoans

/-- A lexical scope (`region::CodeExtent`), opaque identifier. -/
abbrev Scope := Nat

/-- An AST node id (`ast::NodeId`). -/
abbrev NodeId := Nat

/-- A source span (`syntax::codemap::Span`), opaque. -/
abbrev SpanId := Nat

/-- A loan cause (`euv::LoanCause`), opaque to this pass. -/
abbrev LoanCause := Nat

/-- The `euv::AddrOf` loan cause used by the static-initializer walk. -/
def loanCauseAddrOf : LoanCause := 0

/-- `mc::InteriorSafety`: whether a static item has interior mutability. -/
inductive InteriorSafety where
  | interiorUnsafe
  | interiorSafe
  deriving Repr, DecidableEq

/-- `mc::AliasableReason`, as used by this pass: why a place may be
reachable through more than one owner.  `AliasableStatic` and
`AliasableStaticMut` are matched by name in the source; every other
aliasable cause falls under the wildcard arm, collapsed here into
`aliasableOther`. -/
inductive AliasableReason where
  | aliasableStatic (safety : InteriorSafety)
  | aliasableStaticMut
  | aliasableOther
  deriving Repr, DecidableEq

/-- `ty::BorrowKind`: exclusivity level requested by a borrow. -/
inductive BorrowKind where
  | immBorrow
  | uniqueImmBorrow
  | mutBorrow
  deriving Repr, DecidableEq

/-- `ast::Mutability` of an `ExprAddrOf`. -/
inductive Mutability where
  | mutMutable
  | mutImmutable
  deriving Repr, DecidableEq

/-- `ty::BorrowKind::from_mutbl`. -/
def BorrowKind.from_mutbl : Mutability → BorrowKind
  | .mutMutable => .mutBorrow
  | .mutImmutable => .immBorrow

/-- `mc::MutabilityCategory` of a place. -/
inductive MutabilityCategory where
  | mcImmutable
  | mcDeclared
  | mcInherited
  deriving Repr, DecidableEq

/-- `mc::MutabilityCategory::is_mutable`. -/
def MutabilityCategory.is_mutable : MutabilityCategory → Bool
  | .mcImmutable => false
  | .mcDeclared => true
  | .mcInherited => true

/-- The recursive loan-path descriptor (`LoanPath` / `LoanPathKind` in
`borrowck`): a root variable or upvar, a downcast to an enum variant, or
an extension (field/index/deref) carrying its own mutability category.
The projection element is opaque (`Nat`). -/
inductive LoanPath where
  | lpVar (localId : NodeId)
  | lpUpvar (varId : NodeId) (closureExprId : NodeId)
  | lpDowncast (base : LoanPath) (variant : Nat)
  | lpExtend (base : LoanPath) (mutbl : MutabilityCategory) (elem : Nat)
  deriving Repr, DecidableEq

/-- `ty::Region`, as matched by this pass.  `reFree` carries the free
region's underlying scope (`fr.scope`); the placeholder variants carry no
payload relevant here. -/
inductive Region where
  | reScope (s : Scope)
  | reFree (scope : Scope)
  | reStatic
  | reEmpty
  | reLateBound
  | reEarlyBound
  | reInfer
  deriving Repr, DecidableEq

/-- The slice of a `mc::cmt` place descriptor this pass consults: its
mutability category (`cmt.mutbl`), the result of
`cmt.freely_aliasable(tcx)`, and its span (`cmt.span`). -/
structure Cmt where
  mutbl : MutabilityCategory
  freelyAliasable : Option AliasableReason
  span : SpanId
  deriving Repr, DecidableEq

/-- Result of the external restriction solver
(`restrictions::compute_restrictions`). -/
inductive RestrictionsResult where
  | safe
  | safeIf (loanPath : LoanPath) (restrictedPaths : List LoanPath)
  deriving Repr, DecidableEq

/-- A loan record (`borrowck::Loan`). -/
structure Loan where
  index : Nat
  loanPath : LoanPath
  kind : BorrowKind
  genScope : Scope
  killScope : Scope
  span : SpanId
  restrictedPaths : List LoanPath
  cause : LoanCause
  deriving Repr, DecidableEq

/-- A diagnostic emitted to the session sink: an aliasability violation
(`report_aliasability_violation`), a mutability violation
(`bccx.report` with code `err_mutbl`), or the diagnostic the external
lifetime checker emits on its own failure. -/
inductive Diagnostic where
  | aliasabilityViolation (span : SpanId) (cause : LoanCause) (aliasCause : AliasableReason)
  | mutabilityViolation (span : SpanId) (cause : LoanCause)
  | lifetimeViolation (span : SpanId)
  deriving Repr, DecidableEq

/-- The inputs of one `borrow` callback / `guarantee_valid` call. -/
structure BorrowEvent where
  borrowId : NodeId
  borrowSpan : SpanId
  cmt : Cmt
  reqKind : BorrowKind
  loanRegion : Region
  cause : LoanCause
  deriving Repr, DecidableEq

/-- A fatal internal failure: the `span_bug` raised for an invalid borrow
lifetime at scope-resolution time, or the `assert!` in
`compute_kill_scope`. -/
inductive Fatal where
  | spanBug (span : SpanId)
  | assertFail
  deriving Repr, DecidableEq

/-- External collaborators of this pass, modelled as oracles:
the lifetime checker (`lifetime::guarantee_lifetime`, returning the
diagnostic it emits on failure), the restriction solver, the scope table
(`region_maps.is_subscope_of`), the loan path's deallocation scope
(`LoanPath::kill_scope`), and `region::CodeExtent::from_node_id`. -/
structure Ctxt where
  guaranteeLifetime : BorrowEvent → Option Diagnostic
  computeRestrictions : BorrowEvent → RestrictionsResult
  isSubscopeOf : Scope → Scope → Bool
  lpKillScope : LoanPath → Scope
  codeExtentFromNodeId : NodeId → Scope

/-- The mutable state of one function's analysis: the accumulated loan
sequence (`all_loans`), the process-wide used-mutably flag set
(`tcx.used_mut_nodes`), and the session diagnostic sink. -/
structure GatherState where
  allLoans : List Loan
  usedMutNodes : Finset NodeId
  diags : List Diagnostic
  deriving DecidableEq

/-- Append a diagnostic to the session sink. -/
def GatherState.addDiag (st : GatherState) (d : Diagnostic) : GatherState :=
  { st with diags := st.diags ++ [d] }

/-- `check_aliasability` (mod.rs:177-222), translated arm by arm.
Returns `some d` when the check fails after emitting diagnostic `d`,
`none` on success. -/
def check_aliasability (borrowSpan : SpanId) (loanCause : LoanCause)
    (cmt : Cmt) (reqKind : BorrowKind) : Option Diagnostic :=
  match cmt.freelyAliasable, reqKind with
  | none, _ =>
      -- Uniquely accessible path: OK for any kind.
      none
  | some (.aliasableStatic safety), .immBorrow =>
      match safety with
      | .interiorUnsafe => none
      | .interiorSafe => none
  | some .aliasableStaticMut, _ =>
      none
  | some aliasCause, .uniqueImmBorrow =>
      some (.aliasabilityViolation borrowSpan loanCause aliasCause)
  | some aliasCause, .mutBorrow =>
      some (.aliasabilityViolation borrowSpan loanCause aliasCause)
  | _, _ =>
      none

/-- `check_mutability` (mod.rs:372-406). -/
def check_mutability (borrowSpan : SpanId) (cause : LoanCause)
    (cmt : Cmt) (reqKind : BorrowKind) : Option Diagnostic :=
  match reqKind with
  | .uniqueImmBorrow | .immBorrow =>
      match cmt.mutbl with
      | .mcImmutable | .mcDeclared | .mcInherited => none
  | .mutBorrow =>
      if !cmt.mutbl.is_mutable then
        some (.mutabilityViolation borrowSpan cause)
      else
        none

/-- `mark_loan_path_as_mutated` (mod.rs:409-427), acting on the
used-mutably flag set. -/
def mark_loan_path_as_mutated : LoanPath → Finset NodeId → Finset NodeId
  | .lpVar localId, s => insert localId s
  | .lpUpvar varId _, s => insert varId s
  | .lpDowncast base _, s => mark_loan_path_as_mutated base s
  | .lpExtend base .mcInherited _, s => mark_loan_path_as_mutated base s
  | .lpExtend base .mcDeclared _, s => mark_loan_path_as_mutated base s
  | .lpExtend _ .mcImmutable _, s => s

/-- `compute_gen_scope` (mod.rs:429-443). -/
def compute_gen_scope (ctx : Ctxt) (borrowScope loanScope : Scope) : Scope :=
  if ctx.isSubscopeOf borrowScope loanScope then borrowScope else loanScope

/-- `compute_kill_scope` (mod.rs:445-474).  The `assert!` on the
else-branch is modelled as `Except`: `.error .assertFail` when the two
scopes are incomparable. -/
def compute_kill_scope (ctx : Ctxt) (loanScope : Scope) (lp : LoanPath) :
    Except Fatal Scope :=
  let lexicalScope := ctx.lpKillScope lp
  if ctx.isSubscopeOf lexicalScope loanScope then
    .ok lexicalScope
  else if ctx.isSubscopeOf loanScope lexicalScope then
    .ok loanScope
  else
    .error .assertFail

/-- Outcome of the scope-resolution match on `loan_region` inside
`guarantee_valid` (mod.rs:286-312). -/
inductive LoanScopeRes where
  | scope (s : Scope)
  | alreadyHandled
  | invalid
  deriving Repr, DecidableEq

/-- The scope-resolution match (mod.rs:286-312): a scope region maps to
itself, a free region to its underlying scope, static is treated as
already handled upstream (return, no loan), and the remaining variants
are an internal invariant failure. -/
def loanScopeOf : Region → LoanScopeRes
  | .reScope s => .scope s
  | .reFree s => .scope s
  | .reStatic => .alreadyHandled
  | .reEmpty => .invalid
  | .reLateBound => .invalid
  | .reEarlyBound => .invalid
  | .reInfer => .invalid

/-- The tail of `guarantee_valid` after a `SafeIf` restriction and a
resolved `loan_scope` (mod.rs:315-345): compute gen and kill scopes, mark
the path as mutated for mutable borrows, and push the loan with
`index = all_loans.len()`. -/
def finish_loan (ctx : Ctxt) (st : GatherState) (ev : BorrowEvent)
    (loanPath : LoanPath) (restrictedPaths : List LoanPath)
    (loanScope : Scope) : Except Fatal GatherState :=
  let borrowScope := ctx.codeExtentFromNodeId ev.borrowId
  let genScope := compute_gen_scope ctx borrowScope loanScope
  match compute_kill_scope ctx loanScope loanPath with
  | .error f => .error f
  | .ok killScope =>
      let usedMut :=
        if ev.reqKind = .mutBorrow then
          mark_loan_path_as_mutated loanPath st.usedMutNodes
        else
          st.usedMutNodes
      .ok { allLoans := st.allLoans ++
              [{ index := st.allLoans.length
               , loanPath := loanPath
               , kind := ev.reqKind
               , genScope := genScope
               , killScope := killScope
               , span := ev.borrowSpan
               , restrictedPaths := restrictedPaths
               , cause := ev.cause }]
          , usedMutNodes := usedMut
          , diags := st.diags }

/-- `guarantee_valid` (mod.rs:230-345): the borrow validity pipeline,
short-circuiting on the empty region and on the first failing check, then
consulting the restriction solver and resolving the loan scope. -/
def guarantee_valid (ctx : Ctxt) (st : GatherState) (ev : BorrowEvent) :
    Except Fatal GatherState :=
  if ev.loanRegion = .reEmpty then
    -- a loan for the empty region can never be dereferenced
    .ok st
  else
    match ctx.guaranteeLifetime ev with
    | some d => .ok (st.addDiag d)
    | none =>
      match check_mutability ev.borrowSpan ev.cause ev.cmt ev.reqKind with
      | some d => .ok (st.addDiag d)
      | none =>
        match check_aliasability ev.borrowSpan ev.cause ev.cmt ev.reqKind with
        | some d => .ok (st.addDiag d)
        | none =>
          match ctx.computeRestrictions ev with
          | .safe => .ok st
          | .safeIf loanPath restrictedPaths =>
            match loanScopeOf ev.loanRegion with
            | .alreadyHandled => .ok st
            | .invalid => .error (.spanBug ev.cmt.span)
            | .scope loanScope =>
                finish_loan ctx st ev loanPath restrictedPaths loanScope

/-- One traversal event routed by the `euv::Delegate` impl: a borrow goes
to `guarantee_valid`; consume/consume-pat/matched-pat/mutate/decl events
are forwarded to the external move-gatherer, which never touches the loan
sequence or the used-mutably set. -/
inductive Event where
  | borrowEvent (ev : BorrowEvent)
  | moveGathererEvent
  deriving DecidableEq

/-- The dispatcher over one event. -/
def dispatch (ctx : Ctxt) (st : GatherState) : Event → Except Fatal GatherState
  | .borrowEvent ev => guarantee_valid ctx st ev
  | .moveGathererEvent => .ok st

/-- The traversal loop over the event stream, in discovery order. -/
def processEvents (ctx : Ctxt) : List Event → GatherState → Except Fatal GatherState
  | [], st => .ok st
  | e :: es, st =>
      match dispatch ctx st e with
      | .error f => .error f
      | .ok st' => processEvents ctx es st'

/-- `gather_loans_in_fn` (mod.rs:37-61), restricted to the state this
pass owns: start from an empty loan sequence and walk the body's events.
The move table and the deferred move diagnostics are owned by external
collaborators. -/
def gather_loans_in_fn (ctx : Ctxt) (events : List Event) :
    Except Fatal GatherState :=
  processEvents ctx events { allLoans := [], usedMutNodes := ∅, diags := [] }

/-- The expression tree walked by `StaticInitializerCtxt`.  An
`ExprAddrOf` node carries the requested mutability and its base
sub-expression, together with the place descriptor the categorization
context re-derives for the base under an empty parameter environment
(`mc.cat_expr(&**base).unwrap()`).  Every other expression shape is a
node with an arbitrary list of sub-expressions. -/
inductive SIExpr where
  | addrOf (mutbl : Mutability) (baseCmt : Cmt) (base : SIExpr) (span : SpanId)
  | node (children : List SIExpr)

mutual

/-- `StaticInitializerCtxt::visit_expr` (mod.rs:489-505): for an
address-of expression, run only the aliasability check against the
re-derived base descriptor; on failure emit the diagnostic and skip the
subtree, otherwise fall through to `visit::walk_expr`, which walks every
sub-expression.  Returns the diagnostics emitted, in order. -/
def visit_expr : SIExpr → List Diagnostic
  | .addrOf mutbl baseCmt base span =>
      match check_aliasability span loanCauseAddrOf baseCmt
              (BorrowKind.from_mutbl mutbl) with
      | some d => [d]
      | none => visit_expr base
  | .node children => walk_children children

/-- The recursion of `visit::walk_expr` over a node's sub-expressions. -/
def walk_children : List SIExpr → List Diagnostic
  | [] => []
  | e :: es => visit_expr e ++ walk_children es

end

/-- `gather_loans_in_static_initializer` (mod.rs:507-516). -/
def gather_loans_in_static_initializer (expr : SIExpr) : List Diagnostic :=
  visit_expr expr

/-! ### Helper lemmas -/

/-- Exhaustive case analysis of `guarantee_valid`: it either returns the
state unchanged, returns after appending exactly one diagnostic, fails
fatally, or appends exactly one loan whose fields are determined by the
event, the restriction solver and the scope arithmetic. -/
theorem guarantee_valid_cases (ctx : Ctxt) (st : GatherState) (ev : BorrowEvent) :
    guarantee_valid ctx st ev = .ok st ∨
    (∃ d, guarantee_valid ctx st ev = .ok (st.addDiag d)) ∨
    (∃ f, guarantee_valid ctx st ev = .error f) ∨
    (∃ lp rps ls kill,
      ctx.computeRestrictions ev = .safeIf lp rps ∧
      loanScopeOf ev.loanRegion = .scope ls ∧
      compute_kill_scope ctx ls lp = .ok kill ∧
      guarantee_valid ctx st ev = .ok
        { allLoans := st.allLoans ++
            [{ index := st.allLoans.length
             , loanPath := lp
             , kind := ev.reqKind
             , genScope := compute_gen_scope ctx (ctx.codeExtentFromNodeId ev.borrowId) ls
             , killScope := kill
             , span := ev.borrowSpan
             , restrictedPaths := rps
             , cause := ev.cause }]
        , usedMutNodes :=
            if ev.reqKind = .mutBorrow then
              mark_loan_path_as_mutated lp st.usedMutNodes
            else
              st.usedMutNodes
        , diags := st.diags }) := by
  unfold guarantee_valid
  by_cases hreg : ev.loanRegion = Region.reEmpty
  · rw [if_pos hreg]
    exact Or.inl rfl
  · rw [if_neg hreg]
    cases hlt : ctx.guaranteeLifetime ev with
    | some d => exact Or.inr (Or.inl ⟨d, rfl⟩)
    | none =>
      dsimp only
      cases hmut : check_mutability ev.borrowSpan ev.cause ev.cmt ev.reqKind with
      | some d => exact Or.inr (Or.inl ⟨d, rfl⟩)
      | none =>
        dsimp only
        cases hal : check_aliasability ev.borrowSpan ev.cause ev.cmt ev.reqKind with
        | some d => exact Or.inr (Or.inl ⟨d, rfl⟩)
        | none =>
          dsimp only
          cases hres : ctx.computeRestrictions ev with
          | safe => exact Or.inl rfl
          | safeIf lp rps =>
            dsimp only
            cases hls : loanScopeOf ev.loanRegion with
            | alreadyHandled => exact Or.inl rfl
            | invalid => exact Or.inr (Or.inr (Or.inl ⟨Fatal.spanBug ev.cmt.span, rfl⟩))
            | scope ls =>
              dsimp only
              unfold finish_loan
              cases hks : compute_kill_scope ctx ls lp with
              | error f => exact Or.inr (Or.inr (Or.inl ⟨f, rfl⟩))
              | ok kill =>
                exact Or.inr (Or.inr (Or.inr ⟨lp, rps, ls, kill, rfl, rfl, hks, rfl⟩))

/-- Shape of the loan sequence after one `guarantee_valid` call: either
unchanged (and then the used-mutably set is unchanged too), or extended
by exactly one loan carrying index `all_loans.len()`. -/
theorem guarantee_valid_loans_shape (ctx : Ctxt) (st : GatherState)
    (ev : BorrowEvent) (st' : GatherState)
    (h : guarantee_valid ctx st ev = .ok st') :
    (st'.allLoans = st.allLoans ∧ st'.usedMutNodes = st.usedMutNodes) ∨
    (∃ l, st'.allLoans = st.allLoans ++ [l] ∧ l.index = st.allLoans.length) := by
  rcases guarantee_valid_cases ctx st ev with h1 | ⟨d, h1⟩ | ⟨f, h1⟩ |
      ⟨lp, rps, ls, kill, _, _, _, h1⟩
  · rw [h1] at h
    cases h
    exact Or.inl ⟨rfl, rfl⟩
  · rw [h1] at h
    cases h
    exact Or.inl ⟨rfl, rfl⟩
  · rw [h1] at h
    cases h
  · rw [h1] at h
    cases h
    exact Or.inr ⟨_, rfl, rfl⟩

/-- Marking a loan path as mutated only adds flags, never removes one. -/
theorem mark_subset (lp : LoanPath) (s : Finset NodeId) :
    s ⊆ mark_loan_path_as_mutated lp s := by
  induction lp with
  | lpVar localId => exact Finset.subset_insert _ _
  | lpUpvar varId closureExprId => exact Finset.subset_insert _ _
  | lpDowncast base variant ih =>
      simpa [mark_loan_path_as_mutated] using ih
  | lpExtend base mutbl elem ih =>
      cases mutbl with
      | mcImmutable => simp [mark_loan_path_as_mutated]
      | mcDeclared => simpa [mark_loan_path_as_mutated] using ih
      | mcInherited => simpa [mark_loan_path_as_mutated] using ih

/-- The used-mutably flag set only grows across one `guarantee_valid`
call. -/
theorem guarantee_valid_usedMut_mono (ctx : Ctxt) (st : GatherState)
    (ev : BorrowEvent) (st' : GatherState)
    (h : guarantee_valid ctx st ev = .ok st') :
    st.usedMutNodes ⊆ st'.usedMutNodes := by
  rcases guarantee_valid_cases ctx st ev with h1 | ⟨d, h1⟩ | ⟨f, h1⟩ |
      ⟨lp, rps, ls, kill, _, _, _, h1⟩ <;> rw [h1] at h <;> cases h
  · exact Finset.Subset.refl _
  · exact Finset.Subset.refl _
  · by_cases hk : ev.reqKind = BorrowKind.mutBorrow
    · simp only [hk, if_pos]
      exact mark_subset lp st.usedMutNodes
    · simp only [if_neg hk]
      exact Finset.Subset.refl _

/-- The index invariant on a loan sequence: each loan records its own
0-based position. -/
def indicesOk (ls : List Loan) : Prop :=
  ∀ i (h : i < ls.length), (ls.get ⟨i, h⟩).index = i

/-- Appending one loan carrying the old length preserves the index
invariant. -/
theorem indicesOk_append (ls : List Loan) (l : Loan)
    (h : indicesOk ls) (hl : l.index = ls.length) :
    indicesOk (ls ++ [l]) := by
  intro i hi
  simp only [List.length_append, List.length_singleton] at hi
  rcases Nat.lt_or_ge i ls.length with hlt | hge
  · have heq : (ls ++ [l]).get ⟨i, by simp; omega⟩ = ls.get ⟨i, hlt⟩ := by
      simp only [List.get_eq_getElem]
      exact List.getElem_append_left hlt
    rw [heq]
    exact h i hlt
  · have hieq : i = ls.length := by omega
    subst hieq
    have : (ls ++ [l]).get ⟨ls.length, by simp⟩ = l := by
      simp [List.get_eq_getElem]
    rw [this, hl]

/-- One dispatched event preserves the index invariant. -/
theorem dispatch_indicesOk (ctx : Ctxt) (st : GatherState) (e : Event)
    (st' : GatherState) (h : dispatch ctx st e = .ok st')
    (hin : indicesOk st.allLoans) : indicesOk st'.allLoans := by
  cases e with
  | moveGathererEvent =>
      cases h
      exact hin
  | borrowEvent ev =>
      rcases guarantee_valid_loans_shape ctx st ev st' h with ⟨he, _⟩ | ⟨l, he, hidx⟩
      · rw [he]; exact hin
      · rw [he]; exact indicesOk_append _ _ hin hidx

/-- The traversal loop preserves the index invariant. -/
theorem processEvents_indicesOk (ctx : Ctxt) :
    ∀ (events : List Event) (st st' : GatherState),
      processEvents ctx events st = .ok st' →
      indicesOk st.allLoans → indicesOk st'.allLoans := by
  intro events
  induction events with
  | nil =>
      intro st st' h hin
      cases h
      exact hin
  | cons e es ih =>
      intro st st' h hin
      unfold processEvents at h
      cases hd : dispatch ctx st e with
      | error f => rw [hd] at h; cases h
      | ok st1 =>
          rw [hd] at h
          exact ih st1 st' h (dispatch_indicesOk ctx st e st1 hd hin)

/-- The used-mutably flag set only grows across the whole traversal. -/
theorem processEvents_usedMut_mono (ctx : Ctxt) :
    ∀ (events : List Event) (st st' : GatherState),
      processEvents ctx events st = .ok st' →
      st.usedMutNodes ⊆ st'.usedMutNodes := by
  intro events
  induction events with
  | nil =>
      intro st st' h
      cases h
      exact Finset.Subset.refl _
  | cons e es ih =>
      intro st st' h
      unfold processEvents at h
      cases hd : dispatch ctx st e with
      | error f => rw [hd] at h; cases h
      | ok st1 =>
          rw [hd] at h
          refine Finset.Subset.trans ?_ (ih st1 st' h)
          cases e with
          | moveGathererEvent => cases hd; exact Finset.Subset.refl _
          | borrowEvent ev => exact guarantee_valid_usedMut_mono ctx st ev st1 hd

/-! ### Concrete fixtures used by witnesses and counterexamples -/

/-- A concrete oracle context: scopes ordered by `≤`, a lifetime check
that always succeeds, a restriction solver that always returns a
non-trivial restriction rooted at variable 0. -/
def ctx0 : Ctxt where
  guaranteeLifetime := fun _ => none
  computeRestrictions := fun _ => RestrictionsResult.safeIf (.lpVar 0) []
  isSubscopeOf := fun a b => decide (a ≤ b)
  lpKillScope := fun _ => 0
  codeExtentFromNodeId := fun n => n

/-- The empty analysis state, as at the start of `gather_loans_in_fn`. -/
def st0 : GatherState := { allLoans := [], usedMutNodes := ∅, diags := [] }

/-- A mutable borrow of an immutable place under the empty region. -/
def evMutImmEmpty : BorrowEvent :=
  { borrowId := 1, borrowSpan := 5
  , cmt := { mutbl := .mcImmutable, freelyAliasable := none, span := 5 }
  , reqKind := .mutBorrow, loanRegion := .reEmpty, cause := 2 }

/-- A mutable borrow of an immutable place under a scope region. -/
def evMutImmScoped : BorrowEvent :=
  { borrowId := 1, borrowSpan := 5
  , cmt := { mutbl := .mcImmutable, freelyAliasable := none, span := 5 }
  , reqKind := .mutBorrow, loanRegion := .reScope 3, cause := 2 }

/-- A place descriptor aliasable through a shared reference. -/
def cmtOther : Cmt :=
  { mutbl := .mcDeclared, freelyAliasable := some .aliasableOther, span := 3 }

/-! ### Claims -/

/-- C1: for every borrow event the aliasability check follows exactly
this case analysis: cause `None` succeeds for any requested kind; cause
`AliasableStatic` (interior-safe or interior-unsafe) with requested kind
`Immutable` succeeds; cause `AliasableStaticMut` succeeds for every
requested kind; any other aliasable cause together with requested kind
`UniqueImmutable` or `Mutable` emits an aliasability-violation diagnostic
and fails; every remaining (cause, kind) combination succeeds. -/
theorem check_aliasability_case_analysis :
    (∀ sp c (cmt : Cmt) k, cmt.freelyAliasable = none →
        check_aliasability sp c cmt k = none) ∧
    (∀ sp c (cmt : Cmt) safety,
        cmt.freelyAliasable = some (.aliasableStatic safety) →
        check_aliasability sp c cmt .immBorrow = none) ∧
    (∀ sp c (cmt : Cmt) k, cmt.freelyAliasable = some .aliasableStaticMut →
        check_aliasability sp c cmt k = none) ∧
    (∀ sp c (cmt : Cmt) ac k, cmt.freelyAliasable = some ac →
        ac ≠ .aliasableStaticMut →
        (k = .uniqueImmBorrow ∨ k = .mutBorrow) →
        check_aliasability sp c cmt k =
          some (.aliasabilityViolation sp c ac)) ∧
    (∀ sp c (cmt : Cmt), cmt.freelyAliasable = some .aliasableOther →
        check_aliasability sp c cmt .immBorrow = none) := by
  refine ⟨?_, ?_, ?_, ?_, ?_⟩
  · intro sp c cmt k h
    cases k <;> simp [check_aliasability, h]
  · intro sp c cmt safety h
    cases safety <;> simp [check_aliasability, h]
  · intro sp c cmt k h
    cases k <;> simp [check_aliasability, h]
  · intro sp c cmt ac k h hne hk
    rcases hk with rfl | rfl
    · cases ac with
      | aliasableStatic safety => simp [check_aliasability, h]
      | aliasableStaticMut => exact absurd rfl hne
      | aliasableOther => simp [check_aliasability, h]
    · cases ac with
      | aliasableStatic safety => simp [check_aliasability, h]
      | aliasableStaticMut => exact absurd rfl hne
      | aliasableOther => simp [check_aliasability, h]
  · intro sp c cmt h
    simp [check_aliasability, h]

/-- Witness for C1: a shared-reference-aliasable place mutably borrowed
fails the check with the aliasability-violation diagnostic. -/
theorem check_aliasability_case_analysis_witness :
    check_aliasability 3 1 cmtOther .mutBorrow =
      some (.aliasabilityViolation 3 1 .aliasableOther) :=
  check_aliasability_case_analysis.2.2.2.1 3 1 cmtOther .aliasableOther
    .mutBorrow rfl (by decide) (Or.inr rfl)

/-- C2 counterexample: a mutable borrow of an immutable place whose
region is the empty region produces zero diagnostics, not exactly one:
the pipeline returns before the mutability check ever runs. -/
theorem mutable_borrow_immutable_place_zero_diags_cex :
    evMutImmEmpty.reqKind = .mutBorrow ∧
    evMutImmEmpty.cmt.mutbl = .mcImmutable ∧
    ¬ (∃ st', guarantee_valid ctx0 st0 evMutImmEmpty = .ok st' ∧
        st'.diags.length = st0.diags.length + 1) := by
  refine ⟨rfl, rfl, ?_⟩
  rintro ⟨st', h, hlen⟩
  have h0 : guarantee_valid ctx0 st0 evMutImmEmpty = Except.ok st0 := rfl
  rw [h0] at h
  cases h
  omega

/-- C2 (amended): for every borrow event with requested kind Immutable
or UniqueImmutable the mutability check succeeds regardless of the
place's mutability category; for every borrow event with a non-empty
region, requested kind Mutable, and a place whose mutability category is
Immutable, exactly one diagnostic is produced and no loan is appended
(and no variable is flagged used-mutably). -/
theorem check_mutability_and_mut_borrow_rejection :
    (∀ sp c (cmt : Cmt),
        check_mutability sp c cmt .immBorrow = none ∧
        check_mutability sp c cmt .uniqueImmBorrow = none) ∧
    (∀ (ctx : Ctxt) (st : GatherState) (ev : BorrowEvent),
        ev.reqKind = .mutBorrow → ev.cmt.mutbl = .mcImmutable →
        ev.loanRegion ≠ .reEmpty →
        ∃ st', guarantee_valid ctx st ev = .ok st' ∧
          st'.diags.length = st.diags.length + 1 ∧
          st'.allLoans = st.allLoans ∧
          st'.usedMutNodes = st.usedMutNodes) := by
  constructor
  · intro sp c cmt
    constructor <;> (cases hm : cmt.mutbl <;> simp [check_mutability, hm])
  · intro ctx st ev hk hm hne
    unfold guarantee_valid
    rw [if_neg hne]
    cases hlt : ctx.guaranteeLifetime ev with
    | some d =>
        exact ⟨st.addDiag d, rfl, by simp [GatherState.addDiag], rfl, rfl⟩
    | none =>
        dsimp only
        have hcm : check_mutability ev.borrowSpan ev.cause ev.cmt ev.reqKind =
            some (.mutabilityViolation ev.borrowSpan ev.cause) := by
          rw [hk]
          simp [check_mutability, hm, MutabilityCategory.is_mutable]
        rw [hcm]
        exact ⟨st.addDiag (.mutabilityViolation ev.borrowSpan ev.cause), rfl,
          by simp [GatherState.addDiag], rfl, rfl⟩

/-- Witness for C2 (amended): the concrete rejected mutable borrow. -/
theorem check_mutability_and_mut_borrow_rejection_witness :
    ∃ st', guarantee_valid ctx0 st0 evMutImmScoped = .ok st' ∧
      st'.diags.length = st0.diags.length + 1 ∧
      st'.allLoans = st0.allLoans ∧
      st'.usedMutNodes = st0.usedMutNodes :=
  check_mutability_and_mut_borrow_rejection.2 ctx0 st0 evMutImmScoped
    rfl rfl (by decide)

/-- An immutable borrow of a declared-mutable local under a scope region,
which passes every check and produces a loan under `ctx0`. -/
def evImmScoped : BorrowEvent :=
  { borrowId := 4, borrowSpan := 9
  , cmt := { mutbl := .mcDeclared, freelyAliasable := none, span := 9 }
  , reqKind := .immBorrow, loanRegion := .reScope 7, cause := 6 }

/-- The loan `guarantee_valid` produces for `evImmScoped` under `ctx0`
from `st0`. -/
def loanImm : Loan :=
  { index := 0, loanPath := .lpVar 0, kind := .immBorrow, genScope := 4
  , killScope := 0, span := 9, restrictedPaths := [], cause := 6 }

/-- The state after processing `evImmScoped` under `ctx0` from `st0`. -/
def stImm : GatherState :=
  { allLoans := [loanImm], usedMutNodes := ∅, diags := [] }

/-- C3: for every loan produced by the borrow pipeline, `gen_scope`
equals the borrow's own scope when that scope is a subscope of
`loan_scope` and equals `loan_scope` otherwise; consequently (when the
subscope order is reflexive, as program nesting is),
`is_subscope_of(gen_scope, loan_scope)` holds for every produced loan. -/
theorem compute_gen_scope_subscope :
    (∀ (ctx : Ctxt) (bs ls : Scope),
        compute_gen_scope ctx bs ls =
          if ctx.isSubscopeOf bs ls then bs else ls) ∧
    (∀ (ctx : Ctxt), (∀ s, ctx.isSubscopeOf s s = true) →
        ∀ (st : GatherState) (ev : BorrowEvent) (st' : GatherState) (l : Loan),
          guarantee_valid ctx st ev = .ok st' →
          st'.allLoans = st.allLoans ++ [l] →
          ∃ ls, loanScopeOf ev.loanRegion = .scope ls ∧
            l.genScope =
              compute_gen_scope ctx (ctx.codeExtentFromNodeId ev.borrowId) ls ∧
            ctx.isSubscopeOf l.genScope ls = true) := by
  constructor
  · intro ctx bs ls
    rfl
  · intro ctx hrefl st ev st' l h happ
    rcases guarantee_valid_cases ctx st ev with h1 | ⟨d, h1⟩ | ⟨f, h1⟩ |
        ⟨lp, rps, ls, kill, hres, hls, hks, h1⟩
    · rw [h1] at h
      cases h
      exact absurd happ (by simp)
    · rw [h1] at h
      cases h
      exact absurd happ (by simp [GatherState.addDiag])
    · rw [h1] at h
      cases h
    · rw [h1] at h
      cases h
      have hsing := List.append_cancel_left happ
      injection hsing with hLl _
      refine ⟨ls, hls, ?_, ?_⟩
      · rw [← hLl]
      · rw [← hLl]
        show ctx.isSubscopeOf
          (compute_gen_scope ctx (ctx.codeExtentFromNodeId ev.borrowId) ls) ls = true
        unfold compute_gen_scope
        cases hb : ctx.isSubscopeOf (ctx.codeExtentFromNodeId ev.borrowId) ls with
        | false => simp [hb, hrefl ls]
        | true => simp [hb]

/-- Witness for C3: the loan produced for `evImmScoped` under `ctx0`. -/
theorem compute_gen_scope_subscope_witness :
    ∃ ls, loanScopeOf evImmScoped.loanRegion = .scope ls ∧
      loanImm.genScope =
        compute_gen_scope ctx0 (ctx0.codeExtentFromNodeId evImmScoped.borrowId) ls ∧
      ctx0.isSubscopeOf loanImm.genScope ls = true :=
  compute_gen_scope_subscope.2 ctx0 (fun s => by simp [ctx0]) st0 evImmScoped
    stImm loanImm rfl rfl

/-- C4: `kill_scope` equals the rooting variable's lexical scope when
that scope is a subscope of `loan_scope` and equals `loan_scope`
otherwise; under the upstream precondition that the two scopes are
comparable, the asserted invariant never fails (no `assertFail`), and
every loan the pipeline produces carries a kill scope computed this
way. -/
theorem compute_kill_scope_comparable :
    (∀ (ctx : Ctxt) (ls : Scope) (lp : LoanPath),
        (ctx.isSubscopeOf (ctx.lpKillScope lp) ls = true ∨
         ctx.isSubscopeOf ls (ctx.lpKillScope lp) = true) →
        compute_kill_scope ctx ls lp =
          .ok (if ctx.isSubscopeOf (ctx.lpKillScope lp) ls then
                 ctx.lpKillScope lp
               else ls)) ∧
    (∀ (ctx : Ctxt) (st : GatherState) (ev : BorrowEvent) (st' : GatherState) (l : Loan),
        guarantee_valid ctx st ev = .ok st' →
        st'.allLoans = st.allLoans ++ [l] →
        ∃ ls, loanScopeOf ev.loanRegion = .scope ls ∧
          compute_kill_scope ctx ls l.loanPath = .ok l.killScope) := by
  constructor
  · intro ctx ls lp hcomp
    unfold compute_kill_scope
    cases h1 : ctx.isSubscopeOf (ctx.lpKillScope lp) ls with
    | true => simp [h1]
    | false =>
        rcases hcomp with hc | hc
        · rw [h1] at hc
          exact Bool.noConfusion hc
        · simp [h1, hc]
  · intro ctx st ev st' l h happ
    rcases guarantee_valid_cases ctx st ev with h1 | ⟨d, h1⟩ | ⟨f, h1⟩ |
        ⟨lp, rps, ls, kill, hres, hls, hks, h1⟩
    · rw [h1] at h
      cases h
      exact absurd happ (by simp)
    · rw [h1] at h
      cases h
      exact absurd happ (by simp [GatherState.addDiag])
    · rw [h1] at h
      cases h
    · rw [h1] at h
      cases h
      have hsing := List.append_cancel_left happ
      injection hsing with hLl _
      refine ⟨ls, hls, ?_⟩
      rw [← hLl]
      exact hks

/-- Witness for C4: comparable scopes under `ctx0`. -/
theorem compute_kill_scope_comparable_witness :
    compute_kill_scope ctx0 5 (.lpVar 0) =
      .ok (if ctx0.isSubscopeOf (ctx0.lpKillScope (.lpVar 0)) 5 then
             ctx0.lpKillScope (.lpVar 0)
           else 5) :=
  compute_kill_scope_comparable.1 ctx0 5 (.lpVar 0) (Or.inl (by decide))

/-- C5: at scope resolution a scope region maps to itself and a free
region to its underlying scope; a static region makes the pipeline
return with no loan and no additional diagnostic; an empty, late-bound,
early-bound or inferred region is mapped to the invalid case, which (for
the variants that can reach scope resolution) raises the fatal internal
`span_bug` rather than a user-facing diagnostic. -/
theorem scope_resolution_cases :
    (∀ s, loanScopeOf (.reScope s) = .scope s) ∧
    (∀ s, loanScopeOf (.reFree s) = .scope s) ∧
    (∀ (ctx : Ctxt) (st : GatherState) (ev : BorrowEvent),
        ev.loanRegion = .reStatic →
        ctx.guaranteeLifetime ev = none →
        check_mutability ev.borrowSpan ev.cause ev.cmt ev.reqKind = none →
        check_aliasability ev.borrowSpan ev.cause ev.cmt ev.reqKind = none →
        guarantee_valid ctx st ev = .ok st) ∧
    (loanScopeOf .reEmpty = .invalid ∧ loanScopeOf .reLateBound = .invalid ∧
     loanScopeOf .reEarlyBound = .invalid ∧ loanScopeOf .reInfer = .invalid) ∧
    (∀ (ctx : Ctxt) (st : GatherState) (ev : BorrowEvent) lp rps,
        (ev.loanRegion = .reLateBound ∨ ev.loanRegion = .reEarlyBound ∨
         ev.loanRegion = .reInfer) →
        ctx.guaranteeLifetime ev = none →
        check_mutability ev.borrowSpan ev.cause ev.cmt ev.reqKind = none →
        check_aliasability ev.borrowSpan ev.cause ev.cmt ev.reqKind = none →
        ctx.computeRestrictions ev = .safeIf lp rps →
        guarantee_valid ctx st ev = .error (.spanBug ev.cmt.span)) := by
  refine ⟨fun s => rfl, fun s => rfl, ?_, ⟨rfl, rfl, rfl, rfl⟩, ?_⟩
  · intro ctx st ev hreg hlt hcm hca
    unfold guarantee_valid
    rw [if_neg (by simp [hreg])]
    rw [hlt]
    dsimp only
    rw [hcm]
    dsimp only
    rw [hca]
    dsimp only
    cases hres : ctx.computeRestrictions ev with
    | safe => rfl
    | safeIf lp rps =>
        dsimp only
        rw [hreg]
        rfl
  · intro ctx st ev lp rps hr hlt hcm hca hres
    unfold guarantee_valid
    have hne : ev.loanRegion ≠ Region.reEmpty := by
      rcases hr with h | h | h <;> simp [h]
    rw [if_neg hne, hlt]
    dsimp only
    rw [hcm]
    dsimp only
    rw [hca]
    dsimp only
    rw [hres]
    dsimp only
    rcases hr with h | h | h <;> rw [h] <;> rfl

/-- A shared borrow of an immutable static item under the static
region. -/
def evStatic : BorrowEvent :=
  { borrowId := 2, borrowSpan := 8
  , cmt := { mutbl := .mcImmutable
           , freelyAliasable := some (.aliasableStatic .interiorSafe)
           , span := 8 }
  , reqKind := .immBorrow, loanRegion := .reStatic, cause := 1 }

/-- Witness for C5: the static borrow returns with the state unchanged. -/
theorem scope_resolution_cases_witness :
    guarantee_valid ctx0 st0 evStatic = .ok st0 :=
  scope_resolution_cases.2.2.1 ctx0 st0 evStatic rfl rfl rfl rfl

/-- C6: for every borrow event whose region is the empty region the
pipeline returns immediately with the state unchanged: no loan is
appended and no diagnostic is emitted. -/
theorem guarantee_valid_empty_region (ctx : Ctxt) (st : GatherState)
    (ev : BorrowEvent) (h : ev.loanRegion = .reEmpty) :
    guarantee_valid ctx st ev = .ok st := by
  unfold guarantee_valid
  rw [if_pos h]

/-- Witness for C6: the concrete empty-region borrow. -/
theorem guarantee_valid_empty_region_witness :
    guarantee_valid ctx0 st0 evMutImmEmpty = .ok st0 :=
  guarantee_valid_empty_region ctx0 st0 evMutImmEmpty rfl

/-- A mutable borrow of a declared-mutable local under a scope region. -/
def evMutDecl : BorrowEvent :=
  { borrowId := 4, borrowSpan := 9
  , cmt := { mutbl := .mcDeclared, freelyAliasable := none, span := 9 }
  , reqKind := .mutBorrow, loanRegion := .reScope 7, cause := 6 }

/-- The loan produced for `evMutDecl` under `ctx0` from `st0`. -/
def loanMut : Loan :=
  { index := 0, loanPath := .lpVar 0, kind := .mutBorrow, genScope := 4
  , killScope := 0, span := 9, restrictedPaths := [], cause := 6 }

/-- The state after processing `evMutDecl` under `ctx0` from `st0`:
variable 0 is flagged used-mutably. -/
def stMut : GatherState :=
  { allLoans := [loanMut], usedMutNodes := insert 0 ∅, diags := [] }

/-- C7: mutation marking flags the root variable (local or upvar) it
reaches, recurses through variant projections and through extensions
whose category is inherited- or declared-mutable, stops without flagging
at an immutable extension; flagging is idempotent, never removes a flag,
and flags are never cleared during the analysis of a function. -/
theorem mark_loan_path_traversal :
    (∀ localId s, mark_loan_path_as_mutated (.lpVar localId) s = insert localId s) ∧
    (∀ v c s, mark_loan_path_as_mutated (.lpUpvar v c) s = insert v s) ∧
    (∀ b n s, mark_loan_path_as_mutated (.lpDowncast b n) s =
        mark_loan_path_as_mutated b s) ∧
    (∀ b e s, mark_loan_path_as_mutated (.lpExtend b .mcInherited e) s =
        mark_loan_path_as_mutated b s) ∧
    (∀ b e s, mark_loan_path_as_mutated (.lpExtend b .mcDeclared e) s =
        mark_loan_path_as_mutated b s) ∧
    (∀ b e s, mark_loan_path_as_mutated (.lpExtend b .mcImmutable e) s = s) ∧
    (∀ lp s, mark_loan_path_as_mutated lp (mark_loan_path_as_mutated lp s) =
        mark_loan_path_as_mutated lp s) ∧
    (∀ lp s, s ⊆ mark_loan_path_as_mutated lp s) ∧
    (∀ (ctx : Ctxt) (events : List Event) (st st' : GatherState),
        processEvents ctx events st = .ok st' →
        st.usedMutNodes ⊆ st'.usedMutNodes) := by
  refine ⟨fun _ _ => rfl, fun _ _ _ => rfl, fun _ _ _ => rfl, fun _ _ _ => rfl,
    fun _ _ _ => rfl, fun _ _ _ => rfl, ?_, mark_subset, processEvents_usedMut_mono⟩
  intro lp s
  induction lp with
  | lpVar localId => simp [mark_loan_path_as_mutated, Finset.insert_idem]
  | lpUpvar varId closureExprId =>
      simp [mark_loan_path_as_mutated, Finset.insert_idem]
  | lpDowncast base variant ih => simpa [mark_loan_path_as_mutated] using ih
  | lpExtend base mutbl elem ih =>
      cases mutbl with
      | mcImmutable => simp [mark_loan_path_as_mutated]
      | mcDeclared => simpa [mark_loan_path_as_mutated] using ih
      | mcInherited => simpa [mark_loan_path_as_mutated] using ih

/-- Witness for C7: the flag set only grows across a traversal containing
one mutable borrow. -/
theorem mark_loan_path_traversal_witness :
    st0.usedMutNodes ⊆ stMut.usedMutNodes :=
  mark_loan_path_traversal.2.2.2.2.2.2.2.2 ctx0 [Event.borrowEvent evMutDecl]
    st0 stMut rfl

/-- C8: for every loan in the sequence returned by `gather_loans_in_fn`,
its `index` field equals its 0-based position in that sequence; the
sequence is in traversal discovery order because each successful borrow
appends exactly one loan at the end of the sequence. -/
theorem loan_index_positions :
    (∀ (ctx : Ctxt) (events : List Event) (st' : GatherState),
        gather_loans_in_fn ctx events = .ok st' →
        ∀ i (h : i < st'.allLoans.length),
          (st'.allLoans.get ⟨i, h⟩).index = i) ∧
    (∀ (ctx : Ctxt) (st : GatherState) (ev : BorrowEvent) (st' : GatherState),
        guarantee_valid ctx st ev = .ok st' →
        st'.allLoans = st.allLoans ∨
        ∃ l, st'.allLoans = st.allLoans ++ [l] ∧
          l.index = st.allLoans.length) := by
  constructor
  · intro ctx events st' h
    unfold gather_loans_in_fn at h
    exact processEvents_indicesOk ctx events _ st' h
      (fun i hi => absurd hi (by simp))
  · intro ctx st ev st' h
    rcases guarantee_valid_loans_shape ctx st ev st' h with ⟨he, _⟩ | ⟨l, he, hidx⟩
    · exact Or.inl he
    · exact Or.inr ⟨l, he, hidx⟩

/-- Witness for C8: the single loan gathered for `evImmScoped` sits at
position 0 and carries index 0. -/
theorem loan_index_positions_witness :
    (stImm.allLoans.get ⟨0, by decide⟩).index = 0 :=
  loan_index_positions.1 ctx0 [Event.borrowEvent evImmScoped] stImm rfl 0
    (by decide)

/-- C9: the static-initializer checker runs only the aliasability check
for each address-of sub-expression, emits the diagnostic and skips the
subtree on a violation, and otherwise walks into all sub-expressions,
including non-reference ones; no loan is recorded (the walk only
produces diagnostics). -/
theorem static_initializer_walk :
    (∀ m c b sp d,
        check_aliasability sp loanCauseAddrOf c (BorrowKind.from_mutbl m) =
          some d →
        visit_expr (.addrOf m c b sp) = [d]) ∧
    (∀ m c b sp,
        check_aliasability sp loanCauseAddrOf c (BorrowKind.from_mutbl m) =
          none →
        visit_expr (.addrOf m c b sp) = visit_expr b) ∧
    (∀ cs, visit_expr (.node cs) = walk_children cs) ∧
    (walk_children [] = []) ∧
    (∀ e es, walk_children (e :: es) = visit_expr e ++ walk_children es) ∧
    (∀ e, gather_loans_in_static_initializer e = visit_expr e) := by
  refine ⟨?_, ?_, fun cs => rfl, rfl, fun e es => rfl, fun e => rfl⟩
  · intro m c b sp d h
    simp only [visit_expr]
    rw [h]
  · intro m c b sp h
    simp only [visit_expr]
    rw [h]

/-- Witness for C9: a mutable address-of over a shared-aliasable place
inside a static initializer emits exactly the aliasability-violation
diagnostic and nothing from its subtree. -/
theorem static_initializer_walk_witness :
    visit_expr (.addrOf .mutMutable cmtOther (.node []) 3) =
      [.aliasabilityViolation 3 loanCauseAddrOf .aliasableOther] :=
  static_initializer_walk.1 .mutMutable cmtOther (.node []) 3
    (.aliasabilityViolation 3 loanCauseAddrOf .aliasableOther) rfl

/-- C10: whenever `guarantee_valid` returns without appending a loan,
the loan sequence and the used-mutably flag set are exactly as they were
before the call; in particular a rejected mutable borrow never marks its
path as mutated. -/
theorem guarantee_valid_no_loan_no_state_change :
    ∀ (ctx : Ctxt) (st : GatherState) (ev : BorrowEvent) (st' : GatherState),
      guarantee_valid ctx st ev = .ok st' →
      st'.allLoans.length = st.allLoans.length →
      st'.allLoans = st.allLoans ∧ st'.usedMutNodes = st.usedMutNodes := by
  intro ctx st ev st' h hlen
  rcases guarantee_valid_loans_shape ctx st ev st' h with ⟨h1, h2⟩ | ⟨l, h1, _⟩
  · exact ⟨h1, h2⟩
  · rw [h1] at hlen
    simp at hlen

/-- The state after the rejected mutable borrow `evMutImmScoped`: one
diagnostic, no loan, no used-mutably flag. -/
def stRejected : GatherState :=
  { allLoans := [], usedMutNodes := ∅
  , diags := [.mutabilityViolation 5 2] }

/-- Witness for C10: the rejected mutable borrow leaves loans and flags
untouched. -/
theorem guarantee_valid_no_loan_no_state_change_witness :
    stRejected.allLoans = st0.allLoans ∧
    stRejected.usedMutNodes = st0.usedMutNodes :=
  guarantee_valid_no_loan_no_state_change ctx0 st0 evMutImmScoped stRejected
    rfl rfl

end GatherLoans
